import Mathlib

/-!
Shallow embedding of the virtio console and network device cores of this
repository (sources under src/src/devices/src/virtio and src/src/vmm/src),
together with proofs about the embedded operations.

Machine integers are modelled as `Nat` with explicit `% 2 ^ w` where the code
truncates.  Guest memory is a byte map `Nat → Nat` plus validity predicates for
reads and writes (the `vm_memory` crate's `read_slice`/`write_slice` fallibility).
The virtqueue (an assumed external collaborator of the sources) is modelled by
its contract: the list of available descriptor heads that `pop` consumes in
order, `add_used` recorded as an append-only trace of `(index, used_len)`
pairs, and `undo_pop` as putting the head back in front.
-/

namespace LibkrunModel

/-- Big-endian byte image of `(n as u32).to_be_bytes()`; truncates like the Rust cast. -/
def be_u32_bytes (n : Nat) : List Nat :=
  [n / 2 ^ 24 % 256, n / 2 ^ 16 % 256, n / 2 ^ 8 % 256, n % 256]

/-- `u32::from_be_bytes` on a 4-byte list. -/
def be_u32_decode (bs : List Nat) : Nat :=
  bs.foldl (fun a b => a * 256 + b) 0

/-- Little-endian byte image of a `u16` value. -/
def le16_bytes (n : Nat) : List Nat :=
  [n % 256, n / 2 ^ 8 % 256]

/-- Little-endian byte image of a `u32` value. -/
def le32_bytes (n : Nat) : List Nat :=
  [n % 256, n / 2 ^ 8 % 256, n / 2 ^ 16 % 256, n / 2 ^ 24 % 256]

/-- Guest memory: a byte map plus validity of bounded writes and reads at a
physical address (`vm_memory::GuestMemoryMmap::write_slice` / `read_slice`
succeed exactly on valid ranges; `writeOk addr len` / `readOk addr len` model
that validity). -/
structure Mem where
  bytes : Nat → Nat
  writeOk : Nat → Nat → Bool
  readOk : Nat → Nat → Bool

/-- Overwrite the byte range `[addr, addr + data.length)` with `data`. -/
def Mem.store (m : Mem) (addr : Nat) (data : List Nat) : Mem :=
  { m with bytes := fun i =>
      if addr ≤ i ∧ i < addr + data.length then data.getD (i - addr) 0 else m.bytes i }

/-- `mem.write_slice(data, addr)`: fails (returns `none`) on an invalid range. -/
def Mem.write_slice (m : Mem) (data : List Nat) (addr : Nat) : Option Mem :=
  if m.writeOk addr data.length then some (m.store addr data) else none

/-- The byte range `[addr, addr + len)` of guest memory as a list. -/
def Mem.read_bytes (m : Mem) (addr len : Nat) : List Nat :=
  (List.range len).map fun i => m.bytes (addr + i)

/-- One descriptor of a chain: guest address, length and the write-only flag. -/
structure DescNode where
  addr : Nat
  len : Nat
  write_only : Bool
deriving DecidableEq, Repr

/-- A popped descriptor-chain head (virtqueue contract of the sources): the
head's ring index, the head descriptor itself and the rest of the chain
(`next_descriptor()` walks `rest`). -/
structure Head where
  index : Nat
  node : DescNode
  rest : List DescNode
deriving DecidableEq, Repr

/-! ## L2 transport client (src/src/devices/src/virtio/net/passt.rs) -/

namespace Passt

/-- Each frame from passt is prepended by a 4 byte header: a big-endian u32
length of the following ethernet frame. -/
def PASST_HEADER_LEN : Nat := 4

/-- Possible outcomes of `Passt::read_frame`.  `panicTodoShortRead` is the
`todo!("when read frame_length_buf does a partial read")` panic,
`panicRecvFailed` is the `panic!("Read from passt failed ...")` branch of the
recv loop, and `panicSliceBounds` is the slice-indexing panic of
`buf[bytes_read..frame_length]` when `buf` is shorter than the frame. -/
inductive ReadFrameResult
  | ok (frame_length : Nat) (buf : List Nat)
  | wouldBlock
  | unspecIo
  | panicTodoShortRead
  | panicRecvFailed
  | panicSliceBounds
deriving DecidableEq, Repr

/-- The payload part of `Passt::read_frame` after the length prefix has been
consumed: one `recv` into `buf[0..frame_length]` from the remaining socket
bytes `rest`.  The recv loop's `bytes_read == size` test compares against the
*last recv's return value*, so the first successful recv always returns
`Ok(frame_length)` even when it was short. -/
def read_frame_payload (frame_length : Nat) (rest : List Nat) (buf : List Nat) :
    ReadFrameResult :=
  if buf.length < frame_length then .panicSliceBounds
  else if frame_length = 0 then .ok 0 buf
  else if rest.length = 0 then .panicRecvFailed
  else .ok frame_length
    (rest.take (min frame_length rest.length) ++ buf.drop (min frame_length rest.length))

/-- Embedding of `Passt::read_frame(buf)`.  The non-blocking socket is the byte
list `wire`: a read returns `min(requested, wire.length)` bytes, or would-block
when no byte is available.  Mirrors the source: a 4-byte prefix read — a short
read (fewer than 4 available bytes) hits the
`todo!("when read frame_length_buf does a partial read")` — then the payload
recv. -/
def read_frame (wire : List Nat) (buf : List Nat) : ReadFrameResult :=
  if wire.length = 0 then .wouldBlock
  else if wire.length < 4 then .panicTodoShortRead
  else read_frame_payload (be_u32_decode (wire.take 4)) (wire.drop 4) buf

/-- Result of a successful `Passt::write_frame`: the mutated caller buffer and
the bytes emitted on the socket. -/
structure WriteFrameOk where
  buf : List Nat
  wire : List Nat
deriving DecidableEq, Repr

/-- Embedding of `Passt::write_frame(hdr_len, buf)`.  `none` models the two
`assert!` panics (`hdr_len >= PASST_HEADER_LEN` and `buf.len() > hdr_len`).
Otherwise the big-endian length of `buf.len() - hdr_len` overwrites
`buf[hdr_len-4..hdr_len]` and `buf[hdr_len-4..]` is written to the socket. -/
def write_frame (hdr_len : Nat) (buf : List Nat) : Option WriteFrameOk :=
  if hdr_len < PASST_HEADER_LEN then none
  else if buf.length ≤ hdr_len then none
  else
    let frame_length := buf.length - hdr_len
    let buf2 := buf.take (hdr_len - PASST_HEADER_LEN) ++ be_u32_bytes frame_length ++
      buf.drop hdr_len
    some ⟨buf2, buf2.drop (hdr_len - PASST_HEADER_LEN)⟩

end Passt

/-! ## Console core (src/src/devices/src/virtio/console/device.rs and
src/src/devices/src/virtio/console/event_handler.rs) -/

namespace Console

/-! Control event codes.  `defs.rs` is not under src/; the values are the
standard virtio assignments, stated in the design's external-interface
section. -/

def VIRTIO_CONSOLE_DEVICE_READY : Nat := 0
def VIRTIO_CONSOLE_PORT_ADD : Nat := 1
def VIRTIO_CONSOLE_PORT_READY : Nat := 3
def VIRTIO_CONSOLE_CONSOLE_PORT : Nat := 4
def VIRTIO_CONSOLE_PORT_OPEN : Nat := 6

/-- The 8-byte control record `VirtioConsoleControl` (`repr(C, packed(4))`,
fields `id: u32, event: u16, value: u16`). -/
structure VirtioConsoleControl where
  id : Nat
  event : Nat
  value : Nat
deriving DecidableEq, Repr

/-- `ByteValued::as_slice` of `VirtioConsoleControl` on a little-endian host:
the packed little-endian byte image, `4 + 2 + 2 = 8` bytes. -/
def VirtioConsoleControl.toBytes (c : VirtioConsoleControl) : List Nat :=
  le32_bytes c.id ++ le16_bytes c.event ++ le16_bytes c.value

/-- `PortStatus` from console/port.rs (used by device.rs): `NotReady` or
`Ready { opened }`. -/
inductive PortStatus
  | notReady
  | ready (opened : Bool)
deriving DecidableEq, Repr

/-- One console port, the fields device.rs reads or writes: the console flag,
`pending_rx`, `status`, the bytes currently available from the optional input
source, and the optional output sink (modelled by its accumulated contents;
`none` models a port without output). -/
structure CPort where
  is_console : Bool
  pending_rx : Bool
  status : PortStatus
  input : List Nat
  output : Option (List Nat)
deriving DecidableEq, Repr

/-- The epoll event set bits `handle_input` inspects. -/
structure EventSet where
  is_in : Bool
  hang_up : Bool
  read_hang_up : Bool
deriving DecidableEq, Repr

/-! ### Console::process_control_rx (device.rs lines 209-235)

The drain state: guest memory, the command FIFO `cmd_queue`, the control-rx
queue's available heads, and the observable traces — `used` is the sequence of
`add_used(index, len)` calls, `writes` the sequence of `write_slice` records
`(addr, bytes)`.  `used_any` is the function's return value. -/

structure ControlRxState where
  mem : Mem
  cmd_queue : List VirtioConsoleControl
  avail : List Head
  used : List (Nat × Nat)
  writes : List (Nat × List Nat)
  used_any : Bool

/-- Outcome of one iteration of a `while` loop: either the loop exits with the
final state, or it continues with the next state. -/
inductive StepOut (σ : Type)
  | done (s : σ)
  | next (s : σ)

/-- One iteration of the `while let Some(cmd) = self.cmd_queue.front()` loop of
`Console::process_control_rx`.  Faithful to the source: when `queue.pop`
returns `None` the `else` branch only logs — the loop body leaves the state
unchanged and the loop runs again; when `write_slice` fails, the head has been
consumed by `pop` but the command stays in the FIFO (`continue` without
`pop_front`). -/
def control_rx_step (s : ControlRxState) : StepOut ControlRxState :=
  match s.cmd_queue with
  | [] => .done s
  | cmd :: restCmds =>
    match s.avail with
    | [] => .next s
    | head :: tl =>
      match s.mem.write_slice cmd.toBytes head.node.addr with
      | none => .next { s with avail := tl }
      | some m2 =>
        .next { s with
          mem := m2
          avail := tl
          used := s.used ++ [(head.index, head.node.len)]
          writes := s.writes ++ [(head.node.addr, cmd.toBytes)]
          used_any := true
          cmd_queue := restCmds }

/-- Run the `process_control_rx` loop for at most `fuel` iterations; `none`
means the loop has not exited within `fuel` iterations. -/
def control_rx_run : Nat → ControlRxState → Option ControlRxState
  | 0, _ => none
  | fuel + 1, s =>
    match control_rx_step s with
    | .done s2 => some s2
    | .next s2 => control_rx_run fuel s2

/-- `Console::push_control_cmd` (device.rs lines 344-349): push the command
onto the FIFO, then drain via `process_control_rx`; the returned flag is
`used_any`, on which the source calls `signal_used_queue`. -/
def push_control_cmd (fuel : Nat) (s : ControlRxState) (cmd : VirtioConsoleControl) :
    Option (ControlRxState × Bool) :=
  match control_rx_run fuel { s with cmd_queue := s.cmd_queue ++ [cmd] } with
  | none => none
  | some s2 => some (s2, s2.used_any)

/-! ### Console::process_control_tx (device.rs lines 237-342) -/

/-- The per-command dispatch of `Console::process_control_tx`'s `match
cmd.event` (device.rs lines 265-326), acting on the ports vector, the command
FIFO and the `ports_to_resume` list.  `none` models the `self.ports[cmd.id as
usize]` indexing panic when `cmd.id` is out of bounds. -/
def handle_control_cmd (ports : List CPort) (cmd_queue : List VirtioConsoleControl)
    (ports_to_resume : List Nat) (cmd : VirtioConsoleControl) :
    Option (List CPort × List VirtioConsoleControl × List Nat) :=
  if cmd.event = VIRTIO_CONSOLE_DEVICE_READY then
    some (ports,
      cmd_queue ++ (List.range ports.length).map
        (fun port_id => ⟨port_id, VIRTIO_CONSOLE_PORT_ADD, 0⟩),
      ports_to_resume)
  else if cmd.event = VIRTIO_CONSOLE_PORT_READY then
    if cmd.value ≠ 1 then some (ports, cmd_queue, ports_to_resume)
    else if h : cmd.id < ports.length then
      let port := ports.get ⟨cmd.id, h⟩
      let follow : VirtioConsoleControl :=
        if port.is_console then ⟨cmd.id, VIRTIO_CONSOLE_CONSOLE_PORT, 1⟩
        else ⟨cmd.id, VIRTIO_CONSOLE_PORT_OPEN, 1⟩
      some (ports.set cmd.id { port with status := .ready false },
        cmd_queue ++ [follow], ports_to_resume)
    else none
  else if cmd.event = VIRTIO_CONSOLE_PORT_OPEN then
    if cmd.value = 0 ∨ cmd.value = 1 then
      let opened := cmd.value = 1
      if h : cmd.id < ports.length then
        some (ports.set cmd.id { ports.get ⟨cmd.id, h⟩ with status := .ready opened },
          cmd_queue,
          if opened then ports_to_resume ++ [cmd.id] else ports_to_resume)
      else none
    else some (ports, cmd_queue, ports_to_resume)
  else some (ports, cmd_queue, ports_to_resume)

/-! ### Console::process_rx (device.rs lines 398-434) -/

/-- View of the state `Console::process_rx(port_id)` touches: guest memory, the
bytes available from port `port_id`'s input source, the port's `pending_rx`
flag, the port's receive queue (available heads) and the `add_used` trace. -/
structure RxState where
  mem : Mem
  input : List Nat
  pending_rx : Bool
  avail : List Head
  used : List (Nat × Nat)
  used_any : Bool

/-- The `while let Some(head) = queue.pop(mem)` loop of `process_rx`.
`read_until_would_block` lives in console/port.rs, which is not under src/.
Modelled from the spec: `Port::read_until_would_block(mem, addr, len)` fills
the guest range `[addr, addr + len)` from the input source up to would-block
and returns the number of bytes written; zero bytes and would-block are handled
identically by the caller (clear `pending_rx`, `undo_pop`, stop), a guest
memory error is logged and the loop continues with the next head. -/
def process_rx_go : List Head → RxState → RxState
  | [], s => { s with avail := [] }
  | head :: tl, s =>
    let n := min s.input.length head.node.len
    if n = 0 then
      { s with pending_rx := false, avail := head :: tl }
    else if s.mem.writeOk head.node.addr n then
      process_rx_go tl { s with
        mem := s.mem.store head.node.addr (s.input.take n)
        input := s.input.drop n
        used := s.used ++ [(head.index, n)]
        used_any := true
        avail := tl }
    else
      process_rx_go tl { s with avail := tl }

/-- `Console::process_rx(port_id)`: sets the port's `pending_rx` to true
(device.rs line 405), then drains the receive queue. -/
def process_rx (s : RxState) : RxState :=
  process_rx_go s.avail { s with pending_rx := true }

/-! ### Console::process_tx (device.rs lines 436-464) -/

/-- View of the state `Console::process_tx(port_id)` touches: guest memory, the
port's transmit queue, the port's optional output sink, the one-shot
`configured` flag and the `add_used` trace.  `config_update_signaled` records
the `signal_config_update` side effect of the first ever `process_tx`. -/
structure CTxState where
  mem : Mem
  avail : List Head
  output : Option (List Nat)
  configured : Bool
  config_update_signaled : Bool
  used : List (Nat × Nat)
  used_any : Bool

/-- The `while let Some(head) = queue.pop(mem)` loop of `Console::process_tx`.
`none` models a panic: `self.ports[port_id].output.as_mut().unwrap()` when the
port has no output sink, and `mem.write_to(head.addr, output, head.len)
.unwrap()` when the guest range is invalid. -/
def process_tx_go : List Head → CTxState → Option CTxState
  | [], s => some { s with avail := [] }
  | head :: tl, s =>
    match s.output with
    | none => none
    | some out =>
      if s.mem.readOk head.node.addr head.node.len then
        process_tx_go tl { s with
          output := some (out ++ s.mem.read_bytes head.node.addr head.node.len)
          used := s.used ++ [(head.index, head.node.len)]
          used_any := true
          avail := tl }
      else none

/-- `Console::process_tx(port_id)`: the one-shot `configured` bootstrap
(signal a config-changed interrupt on the first ever call), then the transmit
drain loop. -/
def process_tx (s : CTxState) : Option CTxState :=
  let s0 := if s.configured then s
    else { s with configured := true, config_update_signaled := true }
  process_tx_go s0.avail s0

/-! ### Console::handle_input, device.rs variant (lines 352-388) -/

/-- View of the state the device.rs `Console::handle_input(event_set, port_id)`
touches for one port: the port's status, `pending_rx`, input bytes and receive
queue (for the `process_rx` call), plus the command FIFO and control-rx queue
(for `push_control_cmd` on hang-up). -/
structure HandleInputState where
  mem : Mem
  status : PortStatus
  pending_rx : Bool
  input : List Nat
  rx_avail : List Head
  rx_used : List (Nat × Nat)
  cmd_queue : List VirtioConsoleControl
  control_avail : List Head
  control_used : List (Nat × Nat)
  control_writes : List (Nat × List Nat)

/-- The `process_rx(port_id)` call inside `handle_input`, on the combined
view. -/
def handle_input_rx (s : HandleInputState) : HandleInputState × Bool :=
  let r := process_rx ⟨s.mem, s.input, s.pending_rx, s.rx_avail, s.rx_used, false⟩
  ({ s with
      mem := r.mem
      input := r.input
      pending_rx := r.pending_rx
      rx_avail := r.avail
      rx_used := r.used }, r.used_any)

/-- The `push_control_cmd` call inside `handle_input`, on the combined view.
`none` is a non-terminating control-rx drain (`fuel` exhausted). -/
def handle_input_push (fuel : Nat) (s : HandleInputState) (cmd : VirtioConsoleControl) :
    Option HandleInputState :=
  match push_control_cmd fuel
      ⟨s.mem, s.cmd_queue, s.control_avail, s.control_used, s.control_writes, false⟩ cmd with
  | none => none
  | some (c2, _) =>
    some { s with
      mem := c2.mem
      cmd_queue := c2.cmd_queue
      control_avail := c2.avail
      control_used := c2.used
      control_writes := c2.writes }

/-- Embedding of the device.rs `Console::handle_input(event_set, port_id)`
(lines 352-388).  Returns the new state and the `raise_irq` flag; `none` is a
panic or a non-terminating inner control-rx drain.  On a hang-up bit the port
becomes `Ready { opened: false }` and `PORT_OPEN(port_id, 0)` is pushed onto
the command FIFO. -/
def handle_input (fuel : Nat) (port_id : Nat) (s : HandleInputState) (ev : EventSet) :
    Option (HandleInputState × Bool) :=
  match s.status with
  | .notReady => some ({ s with pending_rx := true }, false)
  | .ready false => some (s, false)
  | .ready true =>
    let r1 := if ev.is_in then handle_input_rx s else (s, false)
    if ev.hang_up || ev.read_hang_up then
      match handle_input_push fuel { r1.1 with status := .ready false }
          ⟨port_id, VIRTIO_CONSOLE_PORT_OPEN, 0⟩ with
      | none => none
      | some s2 => some (s2, true)
    else some (r1.1, r1.2)

/-! ### Console::handle_input, event_handler.rs variant (lines 39-77)

event_handler.rs carries a second, older `impl Console` block with its own
`handle_input` and `push_control_cmd`.  It predates the multiport refactor: its
`IN` branch reads 64 bytes into `in_buffer` and calls a zero-argument
`process_rx` that no longer exists in the sources, so that branch is taken here
as an abstract state transformer `rx_old`.  The hang-up branch (lines 55-62) is
embedded faithfully: it transitions the port to `Ready { opened: false }` and
pushes `VirtioConsoleControl { id: 0, event: PORT_OPEN, value: 0 }` — the id is
the literal `0`, not `port_id`. -/

/-- Embedding of the event_handler.rs `Console::handle_input`.  `ports` is the
ports vector (only `status` is consulted or set), `s` the control-rx drain
view; `none` is an indexing panic or fuel exhaustion of the inner drain. -/
def eh_handle_input (rx_old : ControlRxState → ControlRxState) (fuel : Nat)
    (ports : List CPort) (s : ControlRxState) (ev : EventSet) (port_id : Nat) :
    Option (List CPort × ControlRxState) :=
  match ports.get? port_id with
  | none => none
  | some port =>
    match port.status with
    | .notReady => some (ports, s)
    | .ready false => some (ports, s)
    | .ready true =>
      let s1 := if ev.is_in then rx_old s else s
      if ev.hang_up then
        let ports2 := ports.set port_id { port with status := .ready false }
        match push_control_cmd fuel s1 ⟨0, VIRTIO_CONSOLE_PORT_OPEN, 0⟩ with
        | none => none
        | some (s2, _) => some (ports2, s2)
      else some (ports, s1)

end Console

/-! ## Network core (src/src/devices/src/virtio/net/device.rs, net/mod.rs) -/

namespace Net

def MAX_BUFFER_SIZE : Nat := 65562

/-- `mem::size_of::<virtio_net_hdr_v1>()`: two `u8` fields and five `u16`
fields, 12 bytes. -/
def vnet_hdr_len : Nat := 12

/-- `read_into_rx_frame_buf_from_passt`'s effect on
`rx_frame_buf[..rx_bytes_read]`: a zero-filled virtio-net header followed by
the ethernet frame read from passt. -/
def mk_rx_frame (payload : List Nat) : List Nat :=
  List.replicate vnet_hdr_len 0 ++ payload

/-! ### Net::process_tx (device.rs lines 281-347) -/

/-- The descriptor-walk of `Net::process_tx` that gathers `(addr, len)` pairs
into `tx_iovec`: a write-only descriptor clears the accumulated list and breaks
(device.rs lines 297-305). -/
def gather_iovec_go (acc : List (Nat × Nat)) : List DescNode → List (Nat × Nat)
  | [] => acc
  | d :: tl =>
    if d.write_only then []
    else gather_iovec_go (acc ++ [(d.addr, d.len)]) tl

/-- The copy loop of `Net::process_tx` (device.rs lines 311-328): reads each
iovec range from guest memory into `tx_frame_buf[read_count..limit]` with
`limit = min(read_count + desc_len, MAX_BUFFER_SIZE)`; a failed read resets
`read_count` to 0 and breaks.  Returns the updated buffer and `read_count`. -/
def copy_iovec_go (mem : Mem) : List (Nat × Nat) → (Nat → Nat) → Nat → (Nat → Nat) × Nat
  | [], buf, read_count => (buf, read_count)
  | (desc_addr, desc_len) :: tl, buf, read_count =>
    let limit := min (read_count + desc_len) MAX_BUFFER_SIZE
    if mem.readOk desc_addr (limit - read_count) then
      let data := mem.read_bytes desc_addr (limit - read_count)
      copy_iovec_go mem tl
        (fun i => if read_count ≤ i ∧ i < limit then data.getD (i - read_count) 0 else buf i)
        limit
    else (buf, 0)

/-- `tx_frame_buf[..n]` as a list. -/
def buf_slice (buf : Nat → Nat) (n : Nat) : List Nat :=
  (List.range n).map buf

/-- State of `Net::process_tx`: guest memory, the tx queue's available heads,
the device's transmit buffer, the frames emitted to passt (`wire`, one entry
per successful `write_frame`) and the `add_used` trace. -/
structure NetTxState where
  mem : Mem
  avail : List Head
  tx_frame_buf : Nat → Nat
  wire : List (List Nat)
  used : List (Nat × Nat)

/-- The `while let Some(head) = tx_queue.pop(mem)` loop of `Net::process_tx`.
Per head: gather the chain into the iovec (cleared if any descriptor is
write-only), copy the ranges into `tx_frame_buf`, then call
`passt.write_frame(vnet_hdr_len(), &tx_frame_buf[..read_count])` and mark the
head used with length 0.  `none` models a panic: the `assert!` inside
`write_frame` fails whenever `read_count ≤ vnet_hdr_len`, in particular
whenever the iovec was cleared (`read_count = 0`).  The transport itself is
taken as accepting every frame (would-block-free). -/
def net_process_tx_go (mem : Mem) :
    List Head → (Nat → Nat) → List (List Nat) → List (Nat × Nat) →
    Option ((Nat → Nat) × List (List Nat) × List (Nat × Nat))
  | [], buf, wire, used => some (buf, wire, used)
  | head :: tl, buf, wire, used =>
    let iovec := gather_iovec_go [] (head.node :: head.rest)
    let copied := copy_iovec_go mem iovec buf 0
    match Passt.write_frame vnet_hdr_len (buf_slice copied.1 copied.2) with
    | none => none
    | some wr =>
      net_process_tx_go mem tl
        (fun i => if i < copied.2 then wr.buf.getD i 0 else copied.1 i)
        (wire ++ [wr.wire])
        (used ++ [(head.index, 0)])

/-- `Net::process_tx` on the state view (the surrounding irq bookkeeping
raises an interrupt when at least one head was marked used). -/
def net_process_tx (s : NetTxState) : Option NetTxState :=
  match net_process_tx_go s.mem s.avail s.tx_frame_buf s.wire s.used with
  | none => none
  | some (buf, wire, used) =>
    some { s with avail := [], tx_frame_buf := buf, wire := wire, used := used }

/-! ### Net::do_write_frame_to_guest (device.rs lines 178-234) -/

/-- `FrontendError` from net/device.rs. -/
inductive FrontendError
  | descriptorChainTooSmall
  | emptyQueue
  | guestMemory
  | readOnlyDescriptor
deriving DecidableEq, Repr

/-- State of a single receive delivery: guest memory, the rx queue's available
heads, the current frame `rx_frame_buf[..rx_bytes_read]`, the `add_used`
trace, the guest-memory writes performed (`(addr, len)` pairs) and the
`rx_deferred_irqs` flag. -/
structure NetRxState where
  mem : Mem
  avail : List Head
  rx_frame : List Nat
  used : List (Nat × Nat)
  writes : List (Nat × Nat)
  rx_deferred_irqs : Bool

/-- The descriptor-chain walk of `do_write_frame_to_guest` (device.rs lines
199-222): write the frame into write-only descriptors until the frame is
exhausted; a non-write-only descriptor aborts with `ReadOnlyDescriptor`, a
failed guest write aborts with `GuestMemory`.  Returns the new memory, the
write trace delta, the remaining frame bytes and the error, if any. -/
def write_chain_go (mem : Mem) (frame : List Nat) (writes : List (Nat × Nat)) :
    List DescNode → Mem × List (Nat × Nat) × List Nat × Option FrontendError
  | [] => (mem, writes, frame, none)
  | d :: tl =>
    if frame.length = 0 then (mem, writes, frame, none)
    else if ¬ d.write_only then (mem, writes, frame, some .readOnlyDescriptor)
    else
      let len := min frame.length d.len
      if mem.writeOk d.addr len then
        write_chain_go (mem.store d.addr (frame.take len)) (frame.drop len)
          (writes ++ [(d.addr, len)]) tl
      else (mem, writes, frame, some .guestMemory)

/-- Embedding of `Net::do_write_frame_to_guest`.  An empty queue returns
`EmptyQueue` without touching anything; otherwise the popped head's chain is
walked, the chain remaining shorter than the frame yields
`DescriptorChainTooSmall`, and in every popped case the head is marked used —
`used_len` is 0 on error and the full frame length on success — and
`rx_deferred_irqs` is set. -/
def do_write_frame_to_guest (s : NetRxState) : Option FrontendError × NetRxState :=
  match s.avail with
  | [] => (some .emptyQueue, s)
  | head :: tl =>
    let frame_len := s.rx_frame.length
    let w := write_chain_go s.mem s.rx_frame s.writes (head.node :: head.rest)
    let err := match w.2.2.2 with
      | some e => some e
      | none => if w.2.2.1.length ≠ 0 then some .descriptorChainTooSmall else none
    let used_len := match err with
      | some _ => 0
      | none => frame_len
    (err, { s with
      mem := w.1
      writes := w.2.1
      avail := tl
      used := s.used ++ [(head.index, used_len)]
      rx_deferred_irqs := true })

end Net

/-! ## Concrete device states used by counterexamples and witnesses -/

/-- Guest memory in which every bounded read and write succeeds and all bytes
are zero. -/
def memAllOk : Mem := ⟨fun _ => 0, fun _ _ => true, fun _ _ => true⟩

/-- A control-rx drain state with one pending command and no available
descriptor: `cmd_queue` is non-empty while `queue.pop` keeps returning
`None`. -/
def c1_state : Console.ControlRxState :=
  ⟨memAllOk, [⟨0, Console.VIRTIO_CONSOLE_PORT_ADD, 0⟩], [], [], [], false⟩

/-- A control-rx drain state with one pending command and one available
descriptor of length 16 at guest address 100. -/
def c8_state : Console.ControlRxState :=
  ⟨memAllOk, [⟨1, Console.VIRTIO_CONSOLE_PORT_ADD, 0⟩], [⟨7, ⟨100, 16, true⟩, []⟩], [], [], false⟩

/-- The guest memory after the `c8_state` delivery. -/
def c8_m2 : Mem :=
  memAllOk.store 100 (Console.VirtioConsoleControl.toBytes ⟨1, Console.VIRTIO_CONSOLE_PORT_ADD, 0⟩)

/-- Two console ports, both `Ready { opened: true }`: port 0 is the console
port, port 1 an ordinary port. -/
def c5_ports : List Console.CPort :=
  [⟨true, false, .ready true, [], some []⟩, ⟨false, false, .ready true, [], some []⟩]

/-- A control-rx view with an empty FIFO and one available descriptor at guest
address 200. -/
def c5_crx : Console.ControlRxState :=
  ⟨memAllOk, [], [⟨3, ⟨200, 8, true⟩, []⟩], [], [], false⟩

/-- An event set with only a hang-up bit. -/
def c5_event : Console.EventSet := ⟨false, true, false⟩

/-- A network transmit state whose single available head is a write-only
descriptor (a malformed transmit chain). -/
def c2_state : Net.NetTxState :=
  ⟨memAllOk, [⟨0, ⟨0, 20, true⟩, []⟩], (fun _ => 0), [], []⟩

/-- A console transmit state (already configured) whose port has an output
sink and whose queue holds one head of length 5. -/
def c9_ctx : Console.CTxState :=
  ⟨memAllOk, [⟨0, ⟨50, 5, false⟩, []⟩], some [], true, false, [], false⟩

/-- A console transmit state whose port has no output sink and whose queue
holds one head. -/
def c10_state : Console.CTxState :=
  ⟨memAllOk, [⟨0, ⟨0, 1, false⟩, []⟩], none, true, false, [], false⟩

/-- One read-only transmit head of length 20 for the network device. -/
def c9w_heads : List Head := [⟨2, ⟨0, 20, false⟩, []⟩]

/-- An initial transmit buffer. -/
def c9w_buf : Nat → Nat := fun _ => 7

/-- The result of running the network transmit loop on `c9w_heads`. -/
def c9w_net_res : (Nat → Nat) × List (List Nat) × List (Nat × Nat) :=
  (Net.net_process_tx_go memAllOk c9w_heads c9w_buf [] []).getD (c9w_buf, [], [])

/-- The result of the console transmit run on `c9_ctx`. -/
def c9w_tx_res : Console.CTxState := (Console.process_tx c9_ctx).getD c9_ctx

/-- A console receive state: 3 input bytes pending, one rx head of length 2. -/
def c9w_rx : Console.RxState :=
  ⟨memAllOk, [10, 11, 12], false, [⟨5, ⟨40, 2, true⟩, []⟩], [], false⟩

/-- A network receive state: a 3-byte payload frame and one write-only rx head
of length 30. -/
def c9w_net_rx : Net.NetRxState :=
  ⟨memAllOk, [⟨9, ⟨500, 30, true⟩, []⟩], Net.mk_rx_frame [1, 2, 3], [], [], false⟩

/-! ## Helper lemmas -/

/-- Decoding the big-endian image of a value below `2 ^ 32` recovers it. -/
theorem be_decode_encode (n : Nat) (h : n < 2 ^ 32) :
    be_u32_decode (be_u32_bytes n) = n := by
  simp only [be_u32_bytes, be_u32_decode, List.foldl]
  omega

/-- The control record's byte image is 8 bytes long. -/
theorem toBytes_length (c : Console.VirtioConsoleControl) : c.toBytes.length = 8 := rfl

/-! ## C6: read_frame on a blocking or short length-prefix read -/

/-- C6.  The claim: a would-block on the 4-byte length prefix makes
`read_frame` fail with `WouldBlock` (this part holds), and a short prefix read
(fewer than 4 bytes available) makes it fail with the caller-visible
`UnspecifiedIO` error.  The second part is refuted by the code: the
`read_size != 4` branch executes `todo!("when read frame_length_buf does a
partial read")`, a panic, not an error return.  Shown here at a 2-byte
prefix read. -/
theorem c6_short_prefix_read : (∀ buf : List Nat, Passt.read_frame [] buf = .wouldBlock) ∧
    Passt.read_frame [0, 0] (List.replicate 8 0) = .panicTodoShortRead ∧
    Passt.ReadFrameResult.panicTodoShortRead ≠ .unspecIo :=
  ⟨fun _ => rfl, by decide, by decide⟩

/-! ## C7: write_frame / read_frame round trip -/

/-- C7.  For `hdr_len ≥ 4` and `buf.len() > hdr_len` (with the body small
enough for its length to be a faithful u32), `write_frame` writes the
big-endian length of `buf.len() - hdr_len` into `buf[hdr_len-4..hdr_len]` and
emits exactly `buf[hdr_len-4..]`, so the wire is `be_u32(body.len()) ++ body`
for `body = buf[hdr_len..]`; `read_frame` on those wire bytes returns the body
length and recovers the body exactly at the front of its buffer. -/
theorem c7_write_read_roundtrip (hdr_len : Nat) (buf : List Nat)
    (h4 : 4 ≤ hdr_len) (hlen : hdr_len < buf.length)
    (hfit : buf.length - hdr_len < 2 ^ 32) :
    ∃ r, Passt.write_frame hdr_len buf = some r ∧
      r.buf = buf.take (hdr_len - 4) ++ be_u32_bytes (buf.length - hdr_len) ++
        buf.drop hdr_len ∧
      r.wire = be_u32_bytes (buf.drop hdr_len).length ++ buf.drop hdr_len ∧
      ∀ rbuf : List Nat, (buf.drop hdr_len).length ≤ rbuf.length →
        Passt.read_frame r.wire rbuf =
          .ok (buf.drop hdr_len).length (buf.drop hdr_len ++ rbuf.drop (buf.drop hdr_len).length) := by
  have hb : (buf.drop hdr_len).length = buf.length - hdr_len := List.length_drop _ _
  have hbpos : 0 < (buf.drop hdr_len).length := by omega
  have htl : (buf.take (hdr_len - 4)).length = hdr_len - 4 := by
    rw [List.length_take]; omega
  have hw : Passt.write_frame hdr_len buf =
      some ⟨buf.take (hdr_len - 4) ++ be_u32_bytes (buf.length - hdr_len) ++ buf.drop hdr_len,
        (buf.take (hdr_len - 4) ++ be_u32_bytes (buf.length - hdr_len) ++
          buf.drop hdr_len).drop (hdr_len - 4)⟩ := by
    unfold Passt.write_frame
    rw [if_neg (by simp [Passt.PASST_HEADER_LEN]; omega), if_neg (by omega)]
    rfl
  have hdw : (buf.take (hdr_len - 4) ++ be_u32_bytes (buf.length - hdr_len) ++
      buf.drop hdr_len).drop (hdr_len - 4) =
      be_u32_bytes (buf.drop hdr_len).length ++ buf.drop hdr_len := by
    rw [List.append_assoc, List.drop_left' htl, hb]
  refine ⟨_, hw, rfl, hdw, ?_⟩
  intro rbuf hr
  rw [hdw]
  have hlen4 : (be_u32_bytes (buf.drop hdr_len).length).length = 4 := rfl
  have htk : (be_u32_bytes (buf.drop hdr_len).length ++ buf.drop hdr_len).take 4 =
      be_u32_bytes (buf.drop hdr_len).length := List.take_left' hlen4
  have hdp : (be_u32_bytes (buf.drop hdr_len).length ++ buf.drop hdr_len).drop 4 =
      buf.drop hdr_len := List.drop_left' hlen4
  unfold Passt.read_frame
  rw [if_neg (by rw [List.length_append, hlen4]; omega),
    if_neg (by rw [List.length_append, hlen4]; omega), htk, hdp,
    be_decode_encode _ (by omega)]
  unfold Passt.read_frame_payload
  rw [if_neg (by omega), if_neg (by omega), if_neg (by omega)]
  rw [Nat.min_self, List.take_length]

/-- C7 witness: the round trip evaluated at `hdr_len = 4`,
`buf = [9, 9, 9, 9, 17, 34]` (body `[17, 34]`, wire
`[0, 0, 0, 2, 17, 34]`). -/
theorem c7_witness :
    ((4 : Nat) ≤ 4 ∧ 4 < [9, 9, 9, 9, 17, 34].length ∧
      [9, 9, 9, 9, 17, 34].length - 4 < 2 ^ 32) ∧
    (∃ r, Passt.write_frame 4 [9, 9, 9, 9, 17, 34] = some r ∧
      r.buf = [9, 9, 9, 9, 17, 34].take (4 - 4) ++
        be_u32_bytes ([9, 9, 9, 9, 17, 34].length - 4) ++ [9, 9, 9, 9, 17, 34].drop 4 ∧
      r.wire = be_u32_bytes ([9, 9, 9, 9, 17, 34].drop 4).length ++
        [9, 9, 9, 9, 17, 34].drop 4 ∧
      ∀ rbuf : List Nat, ([9, 9, 9, 9, 17, 34].drop 4).length ≤ rbuf.length →
        Passt.read_frame r.wire rbuf = .ok ([9, 9, 9, 9, 17, 34].drop 4).length
          ([9, 9, 9, 9, 17, 34].drop 4 ++ rbuf.drop ([9, 9, 9, 9, 17, 34].drop 4).length)) ∧
    Passt.read_frame [0, 0, 0, 2, 17, 34] [5, 5] = .ok 2 [17, 34] :=
  ⟨⟨by decide, by decide, by decide⟩,
    c7_write_read_roundtrip 4 [9, 9, 9, 9, 17, 34] (by decide) (by decide) (by decide),
    by decide⟩

/-! ## C1: termination of the control-FIFO drain -/

/-- C1.  The claim (and the design): when the control-rx queue yields no
descriptor while the command FIFO is non-empty, the drain stops and the FIFO
retains the remainder.  The code has no `break` in that branch: from
`c1_state` (one pending command, no available descriptor) the loop body
returns the state unchanged, so no iteration bound makes
`process_control_rx` terminate. -/
theorem c1_control_rx_drain_diverges :
    c1_state.cmd_queue ≠ [] ∧ c1_state.avail = [] ∧
    ∀ fuel, Console.control_rx_run fuel c1_state = none := by
  refine ⟨by decide, rfl, ?_⟩
  intro fuel
  induction fuel with
  | zero => rfl
  | succ n ih =>
    have hstep : Console.control_rx_step c1_state = .next c1_state := rfl
    rw [Console.control_rx_run, hstep]
    exact ih

/-! ## C8: what the control-rx drain writes and publishes -/

/-- C8 counterexample.  The claim says the drain writes a 12-byte record and
marks the head used with `used_len = 12` regardless of the descriptor's own
length.  From `c8_state` (descriptor length 16) one delivery publishes
`add_used(7, 16)` — the descriptor's `head.len` — and the record written at
the head's address is 8 bytes (`VirtioConsoleControl` is
`u32 + u16 + u16 = 8` bytes, `repr(C, packed(4))`). -/
theorem c8_counterexample :
    (Console.control_rx_run 2 c8_state).map Console.ControlRxState.used = some [(7, 16)] ∧
    ((Console.control_rx_run 2 c8_state).map fun s =>
      s.writes.map fun w => (w.1, w.2.length)) = some [(100, 8)] ∧
    (16 : Nat) ≠ 12 ∧ (8 : Nat) ≠ 12 := by
  refine ⟨by decide, by decide, by decide, by decide⟩

/-- C8 as amended.  For every outbound control message the drain delivers, it
writes the 8-byte record at the popped head's address and marks that head used
with `used_len = head.len` (the descriptor's own length), not 12. -/
theorem c8_delivery_uses_head_len (s : Console.ControlRxState)
    (cmd : Console.VirtioConsoleControl) (restCmds : List Console.VirtioConsoleControl)
    (head : Head) (tl : List Head) (m2 : Mem)
    (hc : s.cmd_queue = cmd :: restCmds) (ha : s.avail = head :: tl)
    (hw : s.mem.write_slice cmd.toBytes head.node.addr = some m2) :
    Console.control_rx_step s = .next { s with
      mem := m2
      avail := tl
      used := s.used ++ [(head.index, head.node.len)]
      writes := s.writes ++ [(head.node.addr, cmd.toBytes)]
      used_any := true
      cmd_queue := restCmds } ∧
    cmd.toBytes.length = 8 := by
  obtain ⟨mem, cq, av, u, w, ua⟩ := s
  simp only at hc ha hw
  subst hc ha
  refine ⟨?_, rfl⟩
  simp only [Console.control_rx_step, hw]

/-- C8 witness: the amended delivery step evaluated on `c8_state`. -/
theorem c8_witness :
    (c8_state.cmd_queue = [⟨1, Console.VIRTIO_CONSOLE_PORT_ADD, 0⟩] ∧
      c8_state.avail = [⟨7, ⟨100, 16, true⟩, []⟩] ∧
      c8_state.mem.write_slice
        (Console.VirtioConsoleControl.toBytes ⟨1, Console.VIRTIO_CONSOLE_PORT_ADD, 0⟩) 100 =
        some c8_m2) ∧
    (Console.control_rx_step c8_state = .next { c8_state with
      mem := c8_m2
      avail := []
      used := [(7, 16)]
      writes := [(100,
        Console.VirtioConsoleControl.toBytes ⟨1, Console.VIRTIO_CONSOLE_PORT_ADD, 0⟩)]
      used_any := true
      cmd_queue := [] } ∧
    (Console.VirtioConsoleControl.toBytes
      ⟨1, Console.VIRTIO_CONSOLE_PORT_ADD, 0⟩).length = 8) :=
  ⟨⟨rfl, rfl, rfl⟩,
    c8_delivery_uses_head_len c8_state ⟨1, Console.VIRTIO_CONSOLE_PORT_ADD, 0⟩ []
      ⟨7, ⟨100, 16, true⟩, []⟩ [] c8_m2 rfl rfl rfl⟩

/-! ## C4: the control-tx handshake (DEVICE_READY and PORT_READY) -/

/-- C4.  On `DEVICE_READY` the device appends exactly one `PORT_ADD(id = p)`
per port, with strictly ascending ids; on `PORT_READY(id, value)` it ignores
the message when `value ≠ 1`, and otherwise sets the port's status to
`Ready { opened: false }` and appends exactly one follow-up —
`CONSOLE_PORT(id, 1)` for the console port, `PORT_OPEN(id, 1)` otherwise. -/
theorem c4_control_handshake (ports : List Console.CPort)
    (q : List Console.VirtioConsoleControl) (r : List Nat) :
    (∀ i v, Console.handle_control_cmd ports q r ⟨i, Console.VIRTIO_CONSOLE_DEVICE_READY, v⟩ =
      some (ports,
        q ++ (List.range ports.length).map
          (fun p => ⟨p, Console.VIRTIO_CONSOLE_PORT_ADD, 0⟩), r)) ∧
    List.Pairwise (fun a b => a.id < b.id)
      ((List.range ports.length).map
        (fun p => (⟨p, Console.VIRTIO_CONSOLE_PORT_ADD, 0⟩ : Console.VirtioConsoleControl))) ∧
    (∀ i v, v ≠ 1 →
      Console.handle_control_cmd ports q r ⟨i, Console.VIRTIO_CONSOLE_PORT_READY, v⟩ =
        some (ports, q, r)) ∧
    (∀ i, (h : i < ports.length) →
      Console.handle_control_cmd ports q r ⟨i, Console.VIRTIO_CONSOLE_PORT_READY, 1⟩ =
        some (ports.set i { ports.get ⟨i, h⟩ with status := .ready false },
          q ++ [if (ports.get ⟨i, h⟩).is_console
            then ⟨i, Console.VIRTIO_CONSOLE_CONSOLE_PORT, 1⟩
            else ⟨i, Console.VIRTIO_CONSOLE_PORT_OPEN, 1⟩], r)) := by
  refine ⟨?_, ?_, ?_, ?_⟩
  · intro i v
    simp [Console.handle_control_cmd, Console.VIRTIO_CONSOLE_DEVICE_READY]
  · exact List.Pairwise.map _ (fun a b h => h) (List.pairwise_lt_range ports.length)
  · intro i v hv
    simp [Console.handle_control_cmd, Console.VIRTIO_CONSOLE_DEVICE_READY,
      Console.VIRTIO_CONSOLE_PORT_READY, hv]
  · intro i h
    simp [Console.handle_control_cmd, Console.VIRTIO_CONSOLE_DEVICE_READY,
      Console.VIRTIO_CONSOLE_PORT_READY, h]

/-- C4 witness: the handshake evaluated on a two-port console (port 0 the
console port). -/
theorem c4_witness :
    ((2 : Nat) ≠ 1 ∧ 1 < c5_ports.length) ∧
    Console.handle_control_cmd c5_ports [] [] ⟨0, Console.VIRTIO_CONSOLE_DEVICE_READY, 1⟩ =
      some (c5_ports,
        [] ++ (List.range c5_ports.length).map
          (fun p => ⟨p, Console.VIRTIO_CONSOLE_PORT_ADD, 0⟩), []) ∧
    Console.handle_control_cmd c5_ports [] [] ⟨0, Console.VIRTIO_CONSOLE_PORT_READY, 2⟩ =
      some (c5_ports, [], []) ∧
    Console.handle_control_cmd c5_ports [] [] ⟨1, Console.VIRTIO_CONSOLE_PORT_READY, 1⟩ =
      some (c5_ports.set 1 { c5_ports.get ⟨1, by decide⟩ with status := .ready false },
        [] ++ [if (c5_ports.get ⟨1, by decide⟩).is_console
          then ⟨1, Console.VIRTIO_CONSOLE_CONSOLE_PORT, 1⟩
          else ⟨1, Console.VIRTIO_CONSOLE_PORT_OPEN, 1⟩], []) :=
  ⟨⟨by decide, by decide⟩,
    (c4_control_handshake c5_ports [] []).1 0 1,
    (c4_control_handshake c5_ports [] []).2.2.1 0 2 (by decide),
    (c4_control_handshake c5_ports [] []).2.2.2 1 (by decide)⟩

/-! ## C5: hang-up on an open port -/

/-- C5.  The claim: a hang-up on open port `p` enqueues `PORT_OPEN(p, 0)` —
the id names the port that hung up.  The event_handler.rs `handle_input`
hardcodes `id: 0`: with two open ports and a hang-up on port 1, the single
control record delivered to the guest is the byte image of
`{ id: 0, event: PORT_OPEN, value: 0 }`, not of
`{ id: 1, event: PORT_OPEN, value: 0 }` (the device.rs variant of
`handle_input` does use `port_id`; see `dev_handle_input_hangup_uses_port_id`).
The port's status does transition to `Ready { opened: false }`. -/
theorem c5_eh_hangup_sends_id_zero :
    ((Console.eh_handle_input id 4 c5_ports c5_crx c5_event 1).map fun p =>
      p.2.writes.map Prod.snd) =
      some [Console.VirtioConsoleControl.toBytes ⟨0, Console.VIRTIO_CONSOLE_PORT_OPEN, 0⟩] ∧
    Console.VirtioConsoleControl.toBytes ⟨0, Console.VIRTIO_CONSOLE_PORT_OPEN, 0⟩ ≠
      Console.VirtioConsoleControl.toBytes ⟨1, Console.VIRTIO_CONSOLE_PORT_OPEN, 0⟩ ∧
    ((Console.eh_handle_input id 4 c5_ports c5_crx c5_event 1).map fun p =>
      p.1.map Console.CPort.status) = some [.ready true, .ready false] := by
  refine ⟨by decide, by decide, by decide⟩

/-- The device.rs `handle_input` (lines 352-388) does use `port_id` as the id
of the hang-up `PORT_OPEN` message: evaluated on the same scenario (port 1,
hang-up only), the delivered record is the byte image of
`{ id: 1, event: PORT_OPEN, value: 0 }`. -/
theorem dev_handle_input_hangup_uses_port_id :
    ((Console.handle_input 4 1
        ⟨memAllOk, .ready true, false, [], [], [], [], [⟨3, ⟨200, 8, true⟩, []⟩], [], []⟩
        c5_event).map fun p => p.1.control_writes.map Prod.snd) =
      some [Console.VirtioConsoleControl.toBytes ⟨1, Console.VIRTIO_CONSOLE_PORT_OPEN, 0⟩] ∧
    ((Console.handle_input 4 1
        ⟨memAllOk, .ready true, false, [], [], [], [], [⟨3, ⟨200, 8, true⟩, []⟩], [], []⟩
        c5_event).map fun p => p.1.status) = some (.ready false) := by
  refine ⟨by decide, by decide⟩

/-! ## C10: console transmit on a port without an output sink -/

/-- C10.  When the processed port's output sink is `None` and the transmit
queue yields at least one head, `Console::process_tx` unwraps the `None`
(`output.as_mut().unwrap()`) and panics instead of returning or marking the
head used. -/
theorem c10_tx_without_output_panics (s : Console.CTxState)
    (h : s.output = none) (hne : s.avail ≠ []) :
    Console.process_tx s = none := by
  obtain ⟨hd, tl, hav⟩ := List.exists_cons_of_ne_nil hne
  by_cases hc : s.configured
  · simp [Console.process_tx, hc, hav, Console.process_tx_go, h]
  · simp [Console.process_tx, hc, hav, Console.process_tx_go, h]

/-- C10 witness: `process_tx` evaluated on `c10_state` (no output sink, one
available head). -/
theorem c10_witness :
    c10_state.output = none ∧ c10_state.avail ≠ [] ∧
    Console.process_tx c10_state = none :=
  ⟨rfl, by decide, c10_tx_without_output_panics c10_state rfl (by decide)⟩

/-! ## C2: transmit chain containing a write-only descriptor -/

/-- C2.  The claim: such a chain is discarded and processing continues with
the next head.  The code clears `tx_iovec` and breaks out of the gather loop,
which leaves `read_count = 0`; it then still calls
`passt.write_frame(vnet_hdr_len(), &tx_frame_buf[..0])`, whose
`assert!(buf.len() > hdr_len)` fails — `Net::process_tx` panics instead of
continuing.  Evaluated on `c2_state`, whose single head is a write-only
descriptor. -/
theorem c2_write_only_tx_chain_panics :
    (c2_state.avail.map fun h => (h.node :: h.rest).any fun d => d.write_only) = [true] ∧
    Net.net_process_tx c2_state = none := by
  exact ⟨by decide, rfl⟩

/-! ## C3: every network receive delivery marks the popped head used once -/

/-- The chain walk of `do_write_frame_to_guest` never reports `EmptyQueue`. -/
theorem write_chain_go_no_emptyQueue (mem : Mem) (frame : List Nat)
    (writes : List (Nat × Nat)) (descs : List DescNode) :
    (Net.write_chain_go mem frame writes descs).2.2.2 ≠ some .emptyQueue := by
  induction descs generalizing mem frame writes with
  | nil => simp [Net.write_chain_go]
  | cons d tl ih =>
    simp only [Net.write_chain_go]
    split
    · simp
    · split
      · simp
      · split
        · exact ih _ _ _
        · simp

/-- The chain walk preserves `written-bytes + remaining-frame-bytes`. -/
theorem write_chain_go_sum (mem : Mem) (frame : List Nat)
    (writes : List (Nat × Nat)) (descs : List DescNode) :
    (((Net.write_chain_go mem frame writes descs).2.1.map Prod.snd).sum +
      (Net.write_chain_go mem frame writes descs).2.2.1.length) =
    ((writes.map Prod.snd).sum + frame.length) := by
  induction descs generalizing mem frame writes with
  | nil => simp [Net.write_chain_go]
  | cons d tl ih =>
    simp only [Net.write_chain_go]
    split
    · simp
    · split
      · simp
      · split
        · rename_i hfz hwo hok
          rw [ih]
          simp only [List.map_append, List.sum_append, List.length_drop]
          have : min frame.length d.len ≤ frame.length := Nat.min_le_left _ _
          simp only [List.map_cons, List.map_nil, List.sum_cons, List.sum_nil]
          omega
        · simp

/-- C3.  Every receive delivery that pops an rx head marks that head used
exactly once — `used_len = 0` when the walk aborts (non-write-only descriptor,
chain too small, guest write failure) and
`used_len = vnet_hdr_len + frame length` on success — and sets
`rx_deferred_irqs`; a popped head never yields `EmptyQueue`. -/
theorem c3_rx_delivery_marks_used_once (s : Net.NetRxState) (payload : List Nat)
    (head : Head) (tl : List Head)
    (hav : s.avail = head :: tl) (hfr : s.rx_frame = Net.mk_rx_frame payload) :
    ∃ ul, (Net.do_write_frame_to_guest s).2.used = s.used ++ [(head.index, ul)] ∧
      ((Net.do_write_frame_to_guest s).1 = none →
        ul = Net.vnet_hdr_len + payload.length) ∧
      ((Net.do_write_frame_to_guest s).1 ≠ none → ul = 0) ∧
      (Net.do_write_frame_to_guest s).2.rx_deferred_irqs = true ∧
      (Net.do_write_frame_to_guest s).1 ≠ some .emptyQueue := by
  have hlen : (Net.mk_rx_frame payload).length = Net.vnet_hdr_len + payload.length := by
    simp [Net.mk_rx_frame]
  have hne := write_chain_go_no_emptyQueue s.mem s.rx_frame s.writes (head.node :: head.rest)
  simp only [Net.do_write_frame_to_guest, hav]
  generalize hE : Net.write_chain_go s.mem s.rx_frame s.writes (head.node :: head.rest) = E at hne ⊢
  obtain ⟨m2, w2, rem, eo⟩ := E
  rw [hfr, hlen]
  cases eo with
  | some e =>
    refine ⟨0, by simp, by simp, by simp, by simp, ?_⟩
    simpa using hne
  | none =>
    by_cases hrem : rem.length = 0
    · exact ⟨Net.vnet_hdr_len + payload.length, by simp [hrem], by simp [hrem],
        by simp [hrem], by simp, by simp [hrem]⟩
    · exact ⟨0, by simp [hrem], by simp [hrem], by simp, by simp, by simp [hrem]⟩

/-- C3 witness: a 2-byte frame delivered into a single write-only descriptor
of length 20 — the head is marked used with `used_len = 12 + 2` and
`rx_deferred_irqs` is set. -/
theorem c3_witness :
    ((⟨memAllOk, [⟨4, ⟨300, 20, true⟩, []⟩], Net.mk_rx_frame [202, 254], [], [],
        false⟩ : Net.NetRxState).avail = ⟨4, ⟨300, 20, true⟩, []⟩ :: [] ∧
      (⟨memAllOk, [⟨4, ⟨300, 20, true⟩, []⟩], Net.mk_rx_frame [202, 254], [], [],
        false⟩ : Net.NetRxState).rx_frame = Net.mk_rx_frame [202, 254]) ∧
    (∃ ul, (Net.do_write_frame_to_guest ⟨memAllOk, [⟨4, ⟨300, 20, true⟩, []⟩],
        Net.mk_rx_frame [202, 254], [], [], false⟩).2.used = [] ++ [(4, ul)] ∧
      ((Net.do_write_frame_to_guest ⟨memAllOk, [⟨4, ⟨300, 20, true⟩, []⟩],
        Net.mk_rx_frame [202, 254], [], [], false⟩).1 = none →
        ul = Net.vnet_hdr_len + [202, 254].length) ∧
      ((Net.do_write_frame_to_guest ⟨memAllOk, [⟨4, ⟨300, 20, true⟩, []⟩],
        Net.mk_rx_frame [202, 254], [], [], false⟩).1 ≠ none → ul = 0) ∧
      (Net.do_write_frame_to_guest ⟨memAllOk, [⟨4, ⟨300, 20, true⟩, []⟩],
        Net.mk_rx_frame [202, 254], [], [], false⟩).2.rx_deferred_irqs = true ∧
      (Net.do_write_frame_to_guest ⟨memAllOk, [⟨4, ⟨300, 20, true⟩, []⟩],
        Net.mk_rx_frame [202, 254], [], [], false⟩).1 ≠ some .emptyQueue) :=
  ⟨⟨rfl, rfl⟩,
    c3_rx_delivery_marks_used_once
      ⟨memAllOk, [⟨4, ⟨300, 20, true⟩, []⟩], Net.mk_rx_frame [202, 254], [], [], false⟩
      [202, 254] ⟨4, ⟨300, 20, true⟩, []⟩ [] rfl rfl⟩

/-! ## C9: used_len discipline of the add_used calls -/

/-- Every `add_used` the network transmit loop appends publishes length 0. -/
theorem net_process_tx_go_used_zero (mem : Mem) (heads : List Head) :
    ∀ buf wire used r, (∀ e ∈ used, Prod.snd e = 0) →
      Net.net_process_tx_go mem heads buf wire used = some r →
      ∀ e ∈ r.2.2, Prod.snd e = 0 := by
  induction heads with
  | nil =>
    intro buf wire used r h hr
    simp only [Net.net_process_tx_go, Option.some.injEq] at hr
    subst hr
    exact h
  | cons hd tl ih =>
    intro buf wire used r h hr
    simp only [Net.net_process_tx_go] at hr
    generalize hwf : Passt.write_frame Net.vnet_hdr_len
      (Net.buf_slice (Net.copy_iovec_go mem (Net.gather_iovec_go [] (hd.node :: hd.rest)) buf 0).1
        (Net.copy_iovec_go mem (Net.gather_iovec_go [] (hd.node :: hd.rest)) buf 0).2) = wf at hr
    cases wf with
    | none => exact absurd hr (by simp)
    | some wr =>
      dsimp only at hr
      refine ih _ _ _ _ ?_ hr
      intro e he
      rcases List.mem_append.1 he with h1 | h2
      · exact h e h1
      · simp only [List.mem_singleton] at h2
        subst h2
        rfl

/-- The console transmit loop publishes exactly `head.len` for each head it
completes. -/
theorem console_process_tx_go_used (heads : List Head) :
    ∀ s s2 : Console.CTxState, Console.process_tx_go heads s = some s2 →
      s2.used = s.used ++ heads.map fun hd => (hd.index, hd.node.len) := by
  induction heads with
  | nil =>
    intro s s2 h
    simp only [Console.process_tx_go, Option.some.injEq] at h
    subst h
    simp
  | cons hd tl ih =>
    intro s s2 h
    simp only [Console.process_tx_go] at h
    cases ho : s.output with
    | none => rw [ho] at h; exact absurd h (by simp)
    | some out =>
      rw [ho] at h
      simp only at h
      by_cases hro : s.mem.readOk hd.node.addr hd.node.len
      · rw [if_pos hro] at h
        have h2 := ih _ _ h
        simp only at h2
        rw [h2]
        simp [List.append_assoc]
      · rw [if_neg hro] at h
        exact absurd h (by simp)

/-- The console receive loop never grows the pending input. -/
theorem console_process_rx_go_input_le (heads : List Head) :
    ∀ s : Console.RxState,
      (Console.process_rx_go heads s).input.length ≤ s.input.length := by
  induction heads with
  | nil => intro s; simp [Console.process_rx_go]
  | cons hd tl ih =>
    intro s
    simp only [Console.process_rx_go]
    split
    · simp
    · split
      · exact le_trans (ih _) (by simp [List.length_drop])
      · exact ih _

/-- The console receive loop conserves `published-used-len-sum + pending
input`. -/
theorem console_process_rx_go_sum (heads : List Head) :
    ∀ s : Console.RxState,
      (((Console.process_rx_go heads s).used.map Prod.snd).sum +
        (Console.process_rx_go heads s).input.length) =
      ((s.used.map Prod.snd).sum + s.input.length) := by
  induction heads with
  | nil => intro s; simp [Console.process_rx_go]
  | cons hd tl ih =>
    intro s
    simp only [Console.process_rx_go]
    split
    · simp
    · split
      · rename_i hnz hok
        rw [ih]
        simp only [List.map_append, List.sum_append, List.length_drop, List.map_cons,
          List.map_nil, List.sum_cons, List.sum_nil]
        have : min s.input.length hd.node.len ≤ s.input.length := Nat.min_le_left _ _
        omega
      · exact ih _

/-- The chain walk of a network receive delivery only appends to the write
trace. -/
theorem write_chain_go_writes_prefix (mem : Mem) (frame : List Nat)
    (writes : List (Nat × Nat)) (descs : List DescNode) :
    ∃ delta, (Net.write_chain_go mem frame writes descs).2.1 = writes ++ delta := by
  induction descs generalizing mem frame writes with
  | nil => exact ⟨[], by simp [Net.write_chain_go]⟩
  | cons d tl ih =>
    simp only [Net.write_chain_go]
    split
    · exact ⟨[], by simp⟩
    · split
      · exact ⟨[], by simp⟩
      · split
        · obtain ⟨d2, hd2⟩ := ih (mem.store d.addr (frame.take (min frame.length d.len)))
            (frame.drop (min frame.length d.len)) (writes ++ [(d.addr, min frame.length d.len)])
          exact ⟨(d.addr, min frame.length d.len) :: d2, by rw [hd2]; simp⟩
        · exact ⟨[], by simp⟩

/-- C9 counterexample.  The claim says every `add_used` on a transmit queue
publishes `used_len = 0`.  The console's `process_tx` publishes `head.len`:
on `c9_ctx` (one head of length 5) it marks the head used with 5, not 0. -/
theorem c9_counterexample :
    (Console.process_tx c9_ctx).map Console.CTxState.used = some [(0, 5)] ∧
    (5 : Nat) ≠ 0 :=
  ⟨by decide, by decide⟩

/-- C9 as amended.  The network `process_tx` publishes `used_len = 0` for
every head it completes; the console `process_tx` publishes
`used_len = head.len` (the bytes copied to the output sink) for each head; on
receive queues the published lengths account exactly for the bytes delivered
to the guest — the console rx used-length sum equals the input bytes consumed,
and a network rx delivery publishes the full frame length, which equals the
number of bytes written into the chain, on success and 0 on a failed
delivery. -/
theorem c9_used_len_discipline :
    (∀ (mem : Mem) (heads : List Head) (buf : Nat → Nat)
      (wire : List (List Nat)) (r : (Nat → Nat) × List (List Nat) × List (Nat × Nat)),
      Net.net_process_tx_go mem heads buf wire [] = some r →
      ∀ e ∈ r.2.2, Prod.snd e = 0) ∧
    (∀ s s2 : Console.CTxState, Console.process_tx s = some s2 →
      s2.used = s.used ++ s.avail.map fun hd => (hd.index, hd.node.len)) ∧
    (∀ s : Console.RxState,
      ((Console.process_rx s).used.map Prod.snd).sum =
        (s.used.map Prod.snd).sum +
          (s.input.length - (Console.process_rx s).input.length)) ∧
    (∀ (s : Net.NetRxState) (head : Head) (tl : List Head), s.avail = head :: tl →
      ((Net.do_write_frame_to_guest s).1 = none →
        (Net.do_write_frame_to_guest s).2.used =
          s.used ++ [(head.index, s.rx_frame.length)] ∧
        (((Net.do_write_frame_to_guest s).2.writes.drop s.writes.length).map Prod.snd).sum =
          s.rx_frame.length) ∧
      ((Net.do_write_frame_to_guest s).1 ≠ none →
        (Net.do_write_frame_to_guest s).2.used = s.used ++ [(head.index, 0)])) := by
  refine ⟨?_, ?_, ?_, ?_⟩
  · intro mem heads buf wire r hr
    exact net_process_tx_go_used_zero mem heads buf wire [] r (by simp) hr
  · intro s s2 h
    simp only [Console.process_tx] at h
    by_cases hc : s.configured
    · rw [if_pos hc] at h
      exact console_process_tx_go_used _ _ _ h
    · rw [if_neg hc] at h
      have h2 := console_process_tx_go_used _ _ _ h
      simpa using h2
  · intro s
    have h1 := console_process_rx_go_sum s.avail { s with pending_rx := true }
    have h2 := console_process_rx_go_input_le s.avail { s with pending_rx := true }
    simp only [Console.process_rx]
    simp only at h1 h2
    omega
  · intro s head tl hav
    have hsum := write_chain_go_sum s.mem s.rx_frame s.writes (head.node :: head.rest)
    have hpre := write_chain_go_writes_prefix s.mem s.rx_frame s.writes (head.node :: head.rest)
    simp only [Net.do_write_frame_to_guest, hav]
    generalize hE :
      Net.write_chain_go s.mem s.rx_frame s.writes (head.node :: head.rest) = E at hsum hpre ⊢
    obtain ⟨m2, w2, rem, eo⟩ := E
    obtain ⟨delta, hdelta⟩ := hpre
    simp only at hsum hdelta ⊢
    cases eo with
    | some e =>
      refine ⟨fun hh => absurd hh (by simp), fun _ => by simp⟩
    | none =>
      by_cases hrem : rem.length = 0
      · refine ⟨fun _ => ⟨by simp [hrem], ?_⟩, fun hh => absurd (by simp [hrem]) hh⟩
        subst hdelta
        rw [List.drop_left]
        simp only [List.map_append, List.sum_append] at hsum
        omega
      · refine ⟨fun hh => absurd hh (by simp [hrem]), fun _ => by simp [hrem]⟩

/-- C9 witness: the amended discipline evaluated on concrete runs — the
network transmit of one 20-byte read-only head publishes `(2, 0)`; the console
transmit on `c9_ctx` publishes `(0, 5)`; the console receive on `c9w_rx`
consumes 2 of 3 input bytes; the network receive on `c9w_net_rx` delivers a
15-byte frame. -/
theorem c9_witness :
    (Net.net_process_tx_go memAllOk c9w_heads c9w_buf [] [] = some c9w_net_res ∧
      (∀ e ∈ c9w_net_res.2.2, Prod.snd e = 0) ∧ c9w_net_res.2.2 = [(2, 0)]) ∧
    (Console.process_tx c9_ctx = some c9w_tx_res ∧
      c9w_tx_res.used = c9_ctx.used ++ c9_ctx.avail.map fun hd => (hd.index, hd.node.len)) ∧
    (((Console.process_rx c9w_rx).used.map Prod.snd).sum =
      (c9w_rx.used.map Prod.snd).sum +
        (c9w_rx.input.length - (Console.process_rx c9w_rx).input.length)) ∧
    (c9w_net_rx.avail = ⟨9, ⟨500, 30, true⟩, []⟩ :: [] ∧
      ((Net.do_write_frame_to_guest c9w_net_rx).1 = none →
        (Net.do_write_frame_to_guest c9w_net_rx).2.used =
          c9w_net_rx.used ++ [(9, c9w_net_rx.rx_frame.length)] ∧
        (((Net.do_write_frame_to_guest c9w_net_rx).2.writes.drop
            c9w_net_rx.writes.length).map Prod.snd).sum = c9w_net_rx.rx_frame.length) ∧
      ((Net.do_write_frame_to_guest c9w_net_rx).1 ≠ none →
        (Net.do_write_frame_to_guest c9w_net_rx).2.used =
          c9w_net_rx.used ++ [(9, 0)])) :=
  ⟨⟨rfl, c9_used_len_discipline.1 memAllOk c9w_heads c9w_buf [] c9w_net_res rfl, by decide⟩,
    ⟨rfl, c9_used_len_discipline.2.1 c9_ctx c9w_tx_res rfl⟩,
    c9_used_len_discipline.2.2.1 c9w_rx,
    ⟨rfl, c9_used_len_discipline.2.2.2 c9w_net_rx ⟨9, ⟨500, 30, true⟩, []⟩ [] rfl⟩⟩

end LibkrunModel
